import Mathlib

/-!
Verification of the vienna-live-mcp tool handlers.

This file gives a shallow embedding, in Lean, of the in-memory entity
stores and the tool handlers of the repository
(`src/vienna_live_mcp/portmanteaus/expenses_manager.py`,
`planning_manager.py`, `shopping_manager.py`) and proves properties of
the embedded code.

Modelling conventions:
* Python floats are modelled as rationals (`ℚ`); the spec describes the
  amounts as real numbers and every concrete value in the claims is a
  decimal literal, exactly representable.
* Python strings are Lean `String`s; `str.lower` is modelled on the
  ASCII range (`Char.toLower`), and string comparison is the
  code-point lexicographic order (Python's order), modelled on
  `List Char` with the lexicographic order.
* The module-level mutable lists (`MOCK_EXPENSES`, `MOCK_TODOS`, ...)
  become explicit store arguments; each handler returns its result
  together with the new store.  Python dicts with insertion order
  (`MOCK_BUDGETS`) become association lists.
* `datetime.now()` is passed in explicitly: `now` (the `isoformat`
  string), `today` (the `%Y-%m-%d` string) or, where date arithmetic
  happens, a `Clock` structure of the strings the handler derives from
  the current time.
* A `try: ... except Exception: ...` body is modelled as an
  `Except`-valued function marking every operation of the body that can
  raise; the handler applies the body and maps the `error` case to the
  Python `except` branch.
-/

namespace ViennaLive

/-- Python `str.lower()` restricted to ASCII, which is all the data the
program manipulates. -/
def pyLower (s : String) : String := ⟨s.data.map Char.toLower⟩

/-- Python truthiness of an optional string argument (`if s:`): false for
`None` and for the empty string. -/
def pyTruthy : Option String → Bool
  | none => false
  | some s => !s.data.isEmpty

/-- Python string comparison key: code points, lexicographically. -/
def strKey (s : String) : List Char := s.data

/-- Python `needle in haystack` on strings (substring containment). -/
def pySubstr (needle haystack : String) : Prop :=
  needle.data <:+: haystack.data

instance (a b : String) : Decidable (pySubstr a b) := by
  unfold pySubstr; infer_instance

/-! ### A stable sort, the semantics of Python `list.sort(key=...)`

Python's `list.sort` is a stable sort by the key tuple.  Any stable sort
by the same key computes the same list, so we model it by a stable
insertion sort. -/

/-- Insert `x` into `l`, passing over exactly the elements strictly
below it, so that `x` lands before the elements of `l` it ties with. -/
def insertSorted {α : Type} (lt : α → α → Bool) (x : α) : List α → List α
  | [] => [x]
  | y :: ys => if lt y x then y :: insertSorted lt x ys else x :: y :: ys

/-- Stable sort: insert each element into the sorted tail. -/
def stableSort {α : Type} (lt : α → α → Bool) : List α → List α
  | [] => []
  | x :: xs => insertSorted lt x (stableSort lt xs)

/-- The strict comparison on keys used by `stableSort`. -/
def keyLt {α κ : Type} [LinearOrder κ] (key : α → κ) (a b : α) : Bool :=
  decide (key a < key b)

/-- Replace the first element satisfying `p` (the semantics of looking up
a record with `next(...)` and then mutating it in place). -/
def updateFirst {α : Type} (p : α → Bool) (f : α → α) : List α → List α
  | [] => []
  | x :: xs => if p x then f x :: xs else x :: updateFirst p f xs

/-! ### Decimal rendering of Python `str(int)` and the sequential ids

`f"exp_{len(MOCK_EXPENSES) + 1}"` renders the integer in decimal.  We
model the decimal rendering with `Nat.digits`, which lets us prove it
injective. -/

/-- Little-endian decimal digits, computed with explicit fuel so the
kernel can evaluate it (`n` itself is always enough fuel). -/
def decDigitsAux : ℕ → ℕ → List ℕ
  | 0, _ => []
  | _ + 1, 0 => []
  | fuel + 1, n + 1 => ((n + 1) % 10) :: decDigitsAux fuel ((n + 1) / 10)

/-- Little-endian decimal digits of `n` (empty for 0). -/
def decDigits (n : ℕ) : List ℕ := decDigitsAux n n

/-- Decimal rendering of a natural number, the model of Python `str(n)`
inside an f-string. -/
def decRepr (n : ℕ) : String :=
  if n = 0 then "0" else ((decDigits n).reverse.map Nat.digitChar).asString

/-- Python `x or default` for an optional string: `default` when `x` is
`None` or empty. -/
def pyOrElse (o : Option String) (dflt : String) : String :=
  match o with
  | some s => if s.data.isEmpty then dflt else s
  | none => dflt

/-! ## Expenses manager (`expenses_manager.py`)

`MOCK_EXPENSES` is a module-level Python list of expense dicts; it is
the explicit `List Expense` argument below. -/

/-- An entry of `MOCK_EXPENSES`, as built by `add_expense`.  The numeric
`amount` (a Python float) is a rational; the f-string messages that only
rephrase these fields are not modelled. -/
structure Expense where
  id : String
  amount : ℚ
  description : String
  category : String
  date : String
  store : Option String
  payment_method : Option String
  created_at : String
deriving DecidableEq

/-- `f"exp_{n}"`, the id `add_expense` builds. -/
def mkExpId (n : ℕ) : String := "exp_" ++ decRepr n

/-- `add_expense`: appends a new expense whose id is
`f"exp_{len(MOCK_EXPENSES) + 1}"`.  `today` is
`datetime.now().strftime("%Y-%m-%d")` and `now` is
`datetime.now().isoformat()`.  The body has no failing operation, so the
`except` branch is dead and the handler always returns the success
payload `{"success": True, "expense": ..., "message": ...}`. -/
def add_expense (amount : ℚ) (description category : String)
    (date store payment_method : Option String) (today now : String)
    (st : List Expense) : Expense × List Expense :=
  let expense_date := pyOrElse date today
  let expense : Expense :=
    { id := mkExpId (st.length + 1)
      amount := amount
      description := description
      category := category
      date := expense_date
      store := store
      payment_method := payment_method
      created_at := now }
  (expense, st ++ [expense])

/-- Result of `delete_expense`: either the error dict or the success
dict carrying `{"id", "amount", "description"}` of the removed record. -/
inductive DeleteExpenseResult where
  | error (msg : String)
  | success (deleted_id : String) (deleted_amount : ℚ) (deleted_description : String)
deriving DecidableEq

/-- Whether a `delete_expense` response is the `{"error": ...}` shape. -/
def DeleteExpenseResult.isErr : DeleteExpenseResult → Bool
  | .error _ => true
  | .success _ _ _ => false

/-- `delete_expense`: refuses without `confirm=True`, then looks up the
first expense with the given id (`next(...)`) and removes the first list
element equal to it (`MOCK_EXPENSES.remove`). -/
def delete_expense (expense_id : String) (confirm : Bool)
    (st : List Expense) : DeleteExpenseResult × List Expense :=
  if !confirm then
    (.error "Deletion requires confirmation. Set confirm=true", st)
  else
    match st.find? (fun e => e.id == expense_id) with
    | none => (.error ("Expense " ++ expense_id ++ " not found"), st)
    | some e => (.success expense_id e.amount e.description, st.erase e)

/-- One create/delete operation on the expense store, used to reason
about arbitrary operation histories.  Each constructor carries exactly
the handler's arguments (plus the clock strings). -/
inductive ExpOp where
  | add (amount : ℚ) (description category : String)
      (date store payment_method : Option String) (today now : String)
  | del (expense_id : String) (confirm : Bool)

/-- Effect of one operation on the store. -/
def applyExpOp (st : List Expense) : ExpOp → List Expense
  | .add amount description category date store payment_method today now =>
    (add_expense amount description category date store payment_method today now st).2
  | .del expense_id confirm => (delete_expense expense_id confirm st).2

/-- The store after a history of operations, starting from the empty
`MOCK_EXPENSES`. -/
def runExpOps (ops : List ExpOp) : List Expense :=
  ops.foldl applyExpOp []

/-- Whether an operation is a create. -/
def ExpOp.isAdd : ExpOp → Bool
  | .add .. => true
  | .del .. => false

/-- The ids `exp_1 ... exp_n`, in order. -/
def expIdRange (n : ℕ) : List String :=
  (List.range n).map (fun i => mkExpId (i + 1))

/-- The shape of the entries of the per-category `"expenses"` sublist
built by `get_expenses_by_category`. -/
structure ExpenseBrief where
  id : String
  amount : ℚ
  description : String
  date : String
deriving DecidableEq

/-- The per-category aggregate dict `{"count", "total", "expenses"}`. -/
structure CatAgg where
  count : ℕ
  total : ℚ
  expenses : List ExpenseBrief
deriving DecidableEq

/-- The projection `{"id", "amount", "description", "date"}` of an
expense appended to a category's `"expenses"` list. -/
def briefOf (e : Expense) : ExpenseBrief :=
  { id := e.id, amount := e.amount, description := e.description, date := e.date }

/-- One step of the grouping loop of `get_expenses_by_category`: create
the category's dict entry on first sight (count 0, total 0.0) and then
increment count, add the amount and append the brief. -/
def bumpCategory (e : Expense) : List (String × CatAgg) → List (String × CatAgg)
  | [] => [(e.category, { count := 1, total := e.amount, expenses := [briefOf e] })]
  | (c, agg) :: rest =>
    if c == e.category then
      (c, { count := agg.count + 1, total := agg.total + e.amount,
            expenses := agg.expenses ++ [briefOf e] }) :: rest
    else (c, agg) :: bumpCategory e rest

/-- The grouping loop (`for exp in filtered_expenses: ...` building
`category_totals`), with the insertion order a Python dict keeps. -/
def groupByCategory (l : List Expense) : List (String × CatAgg) :=
  l.foldl (fun acc e => bumpCategory e acc) []

/-- `sorted(category_totals.items(), key=lambda x: x[1]["total"],
reverse=True)`: Python's sort is stable and `reverse=True` flips the
comparison while keeping ties in first-encountered order. -/
def sortCategoriesDesc (l : List (String × CatAgg)) : List (String × CatAgg) :=
  stableSort (keyLt (fun p => OrderDual.toDual p.2.total)) l

/-- The filter stage of `get_expenses_by_category` (category filter is
case-insensitive, the date bounds are inclusive string comparisons). -/
def expFiltered (category date_from date_to : Option String) (st : List Expense) :
    List Expense :=
  let f1 :=
    match category with
    | some c =>
      if c.data.isEmpty then st
      else st.filter (fun e => pyLower e.category == pyLower c)
    | none => st
  let f2 :=
    match date_from with
    | some d =>
      if d.data.isEmpty then f1
      else f1.filter (fun e => decide (strKey d ≤ strKey e.date))
    | none => f1
  match date_to with
  | some d =>
    if d.data.isEmpty then f2
    else f2.filter (fun e => decide (strKey e.date ≤ strKey d))
  | none => f2

/-- The result dict of `get_expenses_by_category`; its body has no
failing operation, so the `except` branch is dead. -/
structure CategoryReport where
  period_from : String
  period_to : String
  total_expenses : ℕ
  total_amount : ℚ
  categories : List (String × CatAgg)
  top_category : Option String
deriving DecidableEq

/-- `get_expenses_by_category` (the unused `group_by` parameter is
dropped). -/
def get_expenses_by_category (category date_from date_to : Option String)
    (st : List Expense) : CategoryReport :=
  let filtered_expenses := expFiltered category date_from date_to st
  let sorted_categories := sortCategoriesDesc (groupByCategory filtered_expenses)
  { period_from := pyOrElse date_from "all"
    period_to := pyOrElse date_to "all"
    total_expenses := filtered_expenses.length
    total_amount := (filtered_expenses.map Expense.amount).sum
    categories := sorted_categories
    top_category := sorted_categories.head?.map Prod.fst }

/-- Number of expenses of `l` in category `c` (exact key match, as the
grouping loop uses `exp["category"]` itself as the dict key). -/
def catCount (c : String) (l : List Expense) : ℕ :=
  (l.filter (fun e => e.category == c)).length

/-- Sum of the amounts of the expenses of `l` in category `c`. -/
def catTotal (c : String) (l : List Expense) : ℚ :=
  ((l.filter (fun e => e.category == c)).map Expense.amount).sum

/-- Briefs of the expenses of `l` in category `c`, in list order. -/
def catBriefs (c : String) (l : List Expense) : List ExpenseBrief :=
  (l.filter (fun e => e.category == c)).map briefOf

/-! ## Budgets (`set_budget` / `get_budget_status`)

`MOCK_BUDGETS` is a Python dict keyed by `f"{category}_{period}"`; we
model it as an association list in insertion order. -/

/-- The alert level attached under the `"alert"` key (its `"message"`
value only reformats `percentage_used`, so just the level is kept). -/
inductive AlertLevel where
  | warning
  | danger
deriving DecidableEq

/-- A budget dict as built by `set_budget` and later mutated in place by
`get_budget_status`.  `percentage_used` and `alert` model keys that are
absent until `get_budget_status` first writes them. -/
structure Budget where
  id : String
  category : String
  amount : ℚ
  period : String
  alert_threshold : ℚ
  created_at : String
  spent_this_period : ℚ
  remaining : ℚ
  percentage_used : Option ℚ := none
  alert : Option AlertLevel := none
deriving DecidableEq

/-- Python dict assignment `d[k] = v`: replace in place if the key
exists, else append. -/
def dictSet {β : Type} (k : String) (v : β) : List (String × β) → List (String × β)
  | [] => [(k, v)]
  | (k0, v0) :: rest => if k0 == k then (k, v) :: rest else (k0, v0) :: dictSet k v rest

/-- `set_budget`: stores a fresh budget under `f"{category}_{period}"`
with `spent_this_period = 0.0` and `remaining = amount`.  The body has
no failing operation. -/
def set_budget (category : String) (amount : ℚ) (period : String)
    (alert_threshold : ℚ) (now : String) (st : List (String × Budget)) :
    Budget × List (String × Budget) :=
  let budget_key := category ++ "_" ++ period
  let budget : Budget :=
    { id := budget_key
      category := category
      amount := amount
      period := period
      alert_threshold := alert_threshold
      created_at := now
      spent_this_period := 0
      remaining := amount }
  (budget, dictSet budget_key budget st)

/-- The filter of `get_budget_status` over the budget dict: category is
compared case-insensitively, period exactly. -/
def budgetMatches (category period : Option String) (b : Budget) : Bool :=
  (match category with
   | some c => if c.data.isEmpty then true else pyLower b.category == pyLower c
   | none => true) &&
  (match period with
   | some p => if p.data.isEmpty then true else b.period == p
   | none => true)

/-- The full in-place mutation of one budget by `get_budget_status`
(after the division succeeded): mock 60% spent, remaining, percentage
used, and the alert key when the threshold is reached. -/
def budgetUpd (b : Budget) : Budget :=
  let spent := b.amount * (6 / 10)
  let remaining := b.amount - spent
  let pct := spent / b.amount * 100
  { b with
      spent_this_period := spent
      remaining := remaining
      percentage_used := some pct
      alert :=
        if b.alert_threshold ≤ pct then
          some (if pct < 100 then .warning else .danger)
        else b.alert }

/-- The state of a budget with `amount = 0.0` at the instant the
`ZeroDivisionError` is raised: `spent_this_period` and `remaining` were
already assigned, `percentage_used` was not. -/
def budgetUpdStopped (b : Budget) : Budget :=
  { b with spent_this_period := b.amount * (6 / 10),
           remaining := b.amount - b.amount * (6 / 10) }

/-- The mutation loop of `get_budget_status` over the store.  The values
of the filtered dict alias the stored dicts, so mutating them mutates
the store; iteration order is store order.  On a `ZeroDivisionError`
(`amount == 0.0`) the loop stops: the result is `error`, carrying the
partially mutated store. -/
def gbsLoop (p : Budget → Bool) : List (String × Budget) →
    Except (List (String × Budget)) (List (String × Budget) × List Budget)
  | [] => .ok ([], [])
  | (k, b) :: rest =>
    if p b then
      if b.amount = 0 then .error ((k, budgetUpdStopped b) :: rest)
      else
        match gbsLoop p rest with
        | .ok (rest2, out) => .ok ((k, budgetUpd b) :: rest2, budgetUpd b :: out)
        | .error rest2 => .error ((k, budgetUpd b) :: rest2)
    else
      match gbsLoop p rest with
      | .ok (rest2, out) => .ok ((k, b) :: rest2, out)
      | .error rest2 => .error ((k, b) :: rest2)

/-- The `"summary"` dict of `get_budget_status`. -/
structure BudgetSummary where
  total_budgets : ℕ
  alerts : ℕ
  total_allocated : ℚ
  total_remaining : ℚ
deriving DecidableEq

/-- Result of `get_budget_status`: the success dict with the (mutated)
filtered budgets and their summary, or the `{"error": ...}` dict built
from a raised `ZeroDivisionError`. -/
inductive BudgetStatusResult where
  | status (budgets : List Budget) (summary : BudgetSummary)
  | error (msg : String)
deriving DecidableEq

/-- `get_budget_status`: filters the shallow-copied dict (whose values
alias the store), mutates every matching budget in place, and returns
the filtered values plus a summary.  The returned store reflects the
in-place mutations — also on the error path. -/
def get_budget_status (category period : Option String)
    (st : List (String × Budget)) : BudgetStatusResult × List (String × Budget) :=
  match gbsLoop (budgetMatches category period) st with
  | .ok (st2, out) =>
    (.status out
      { total_budgets := out.length
        alerts := (out.filter (fun b => b.alert.isSome)).length
        total_allocated := (out.map Budget.amount).sum
        total_remaining := (out.map Budget.remaining).sum },
     st2)
  | .error st2 => (.error "float division by zero", st2)

/-! ## Dates

`datetime.fromisoformat` / `strptime(..., "%Y-%m-%d")` on the
`YYYY-MM-DD` strings the handlers produce and consume: parsing
validates the format and the calendar, subtraction counts days. -/

/-- Gregorian leap year. -/
def isLeapYear (y : ℕ) : Bool := (y % 4 == 0 && y % 100 != 0) || y % 400 == 0

/-- Month lengths of a (non-)leap year. -/
def monthLengths (leap : Bool) : List ℕ :=
  [31, if leap then 29 else 28, 31, 30, 31, 30, 31, 31, 30, 31, 30, 31]

/-- Days in month `m` of year `y` (months are 1-based). -/
def daysInMonth (y m : ℕ) : ℕ := (monthLengths (isLeapYear y)).getD (m - 1) 0

/-- Parse a `YYYY-MM-DD` string, the model of `datetime.fromisoformat`
and `strptime(..., "%Y-%m-%d")` on the date-only format the program
documents; `none` models the raised `ValueError`. -/
def parseIsoDate (s : String) : Option (ℕ × ℕ × ℕ) :=
  match s.data with
  | [y1, y2, y3, y4, sep1, m1, m2, sep2, d1, d2] =>
    if y1.isDigit && y2.isDigit && y3.isDigit && y4.isDigit && sep1 == '-' &&
        m1.isDigit && m2.isDigit && sep2 == '-' && d1.isDigit && d2.isDigit then
      let y := 1000 * (y1.toNat - 48) + 100 * (y2.toNat - 48) + 10 * (y3.toNat - 48) +
        (y4.toNat - 48)
      let m := 10 * (m1.toNat - 48) + (m2.toNat - 48)
      let d := 10 * (d1.toNat - 48) + (d2.toNat - 48)
      if 1 ≤ y && 1 ≤ m && m ≤ 12 && 1 ≤ d && d ≤ daysInMonth y m then some (y, m, d)
      else none
    else none
  | _ => none

/-- Day number of a calendar date (a Rata Die count), so that date
subtraction is subtraction of day numbers. -/
def rataDie : ℕ × ℕ × ℕ → ℕ
  | (y, m, d) =>
    365 * (y - 1) + ((y - 1) / 4 - (y - 1) / 100) + (y - 1) / 400 +
      ((monthLengths (isLeapYear y)).take (m - 1)).sum + d

/-- `(strptime(a) - strptime(b)).days`; `none` models the `ValueError`
of a failed parse. -/
def dateDiffDays (a b : String) : Option ℤ :=
  match parseIsoDate a, parseIsoDate b with
  | some x, some y => some ((rataDie x : ℤ) - (rataDie y : ℤ))
  | _, _ => none

/-- The strings a handler derives from `datetime.now()`:
`now.strftime("%Y-%m-%d")` and `(now - timedelta(days=k)).strftime("%Y-%m-%d")`. -/
structure Clock where
  todayStr : String
  minusDays : ℕ → String

/-! ## `analyze_spending_patterns` -/

/-- The analysis dict built by `analyze_spending_patterns`.  It carries
no `"success"` and no `"error"` key. -/
structure Analysis where
  period_from : String
  period_to : String
  total_expenses : ℕ
  total_spent : ℚ
  average_daily : ℚ
  insights : List String
  recommendations : List String
deriving DecidableEq

/-- Response of `analyze_spending_patterns`: the analysis dict, or the
`{"error": str(e)}` dict produced by the `except` branch. -/
inductive AnalyzeResult where
  | analysis (a : Analysis)
  | error (msg : String)
deriving DecidableEq

/-- The mock `"insights"` list per focus. -/
def insightsFor (focus : String) : List String :=
  if focus == "trends" then
    ["Spending increased by 15% compared to previous period",
     "Food category represents 35% of total expenses",
     "Weekend spending is 40% higher than weekdays"]
  else if focus == "anomalies" then
    ["Unusual spending spike on groceries last Tuesday",
     "Higher than average transport costs this week",
     "Multiple small purchases suggesting impulse buying"]
  else if focus == "savings" then
    ["Potential savings of €120/month through bulk purchasing",
     "€85/month savings possible with subscription optimization",
     "€45/month savings from reduced dining out"]
  else []

/-- The mock `"recommendations"` list per focus. -/
def recsFor (focus : String) : List String :=
  if focus == "trends" then
    ["Consider meal planning to reduce food expenses",
     "Look for grocery delivery discounts",
     "Set weekly spending limits for entertainment"]
  else if focus == "anomalies" then
    ["Review grocery purchases for bulk buying opportunities",
     "Check public transport subscriptions for savings",
     "Set daily spending alerts to curb impulse purchases"]
  else if focus == "savings" then
    ["Start a grocery bulk buying program",
     "Audit and cancel unused subscriptions",
     "Cook at home more frequently"]
  else []

/-- `analyze_spending_patterns`.  For a `period` outside
`month`/`quarter`/`year` no branch assigns `date_from`, so its first use
raises an `UnboundLocalError`, caught into the error dict.  With
expenses in range, `strptime` of the clock strings and the division by
`days_in_period` are the remaining raise points. -/
def analyze_spending_patterns (period focus : String) (clock : Clock)
    (st : List Expense) : AnalyzeResult :=
  let dateFromAssigned : Option String :=
    if period == "month" then some (clock.minusDays 30)
    else if period == "quarter" then some (clock.minusDays 90)
    else if period == "year" then some (clock.minusDays 365)
    else none
  match dateFromAssigned with
  | none => .error "cannot access local variable 'date_from'"
  | some date_from =>
    let date_to := clock.todayStr
    let period_expenses := st.filter (fun e =>
      decide (strKey date_from ≤ strKey e.date) && decide (strKey e.date ≤ strKey date_to))
    let total_spent := (period_expenses.map Expense.amount).sum
    if period_expenses.isEmpty then
      .analysis
        { period_from := date_from, period_to := date_to
          total_expenses := period_expenses.length
          total_spent := total_spent
          average_daily := 0, insights := [], recommendations := [] }
    else
      match dateDiffDays date_to date_from with
      | none => .error "time data does not match format"
      | some diff =>
        let days_in_period := diff + 1
        if days_in_period = 0 then .error "division by zero"
        else
          .analysis
            { period_from := date_from, period_to := date_to
              total_expenses := period_expenses.length
              total_spent := total_spent
              average_daily := total_spent / (days_in_period : ℚ)
              insights := insightsFor focus
              recommendations := recsFor focus }

/-- The response shapes the spec's contract names. -/
inductive RespShape where
  | successObj
  | payloadList
  | plainObj
  | errorObj
deriving DecidableEq

/-- Shape of an `analyze_spending_patterns` response. -/
def analyzeShape : AnalyzeResult → RespShape
  | .analysis _ => .plainObj
  | .error _ => .errorObj

/-! ## Planning manager (`planning_manager.py`): todos -/

/-- An entry of `MOCK_TODOS`, as built by `create_todo` and mutated by
`complete_todo`.  `completed_at`/`completion_notes` model keys that are
absent until `complete_todo` writes them. -/
structure Todo where
  id : String
  title : String
  description : Option String
  category : String
  priority : String
  due_date : Option String
  estimated_time : Option String
  status : String
  created_at : String
  updated_at : String
  completed_at : Option String := none
  completion_notes : Option String := none
deriving DecidableEq

/-- `create_todo`: appends a pending todo with id
`f"todo_{len(MOCK_TODOS) + 1}"`.  The body has no failing operation. -/
def create_todo (title : String) (description : Option String)
    (category priority : String) (due_date estimated_time : Option String)
    (now : String) (st : List Todo) : Todo × List Todo :=
  let todo : Todo :=
    { id := "todo_" ++ decRepr (st.length + 1)
      title := title
      description := description
      category := category
      priority := priority
      due_date := due_date
      estimated_time := estimated_time
      status := "pending"
      created_at := now
      updated_at := now }
  (todo, st ++ [todo])

/-- Result of `complete_todo`: the success dict carrying the mutated
todo, or the not-found error dict. -/
inductive CompleteTodoResult where
  | success (todo : Todo)
  | error (msg : String)
deriving DecidableEq

/-- Whether a `complete_todo` response is the success shape. -/
def CompleteTodoResult.isSuccess : CompleteTodoResult → Bool
  | .success _ => true
  | .error _ => false

/-- The in-place mutation `complete_todo` performs on the found todo. -/
def completedTodo (t : Todo) (completion_notes : Option String) (now : String) : Todo :=
  { t with
      status := "completed"
      completed_at := some now
      completion_notes := completion_notes
      updated_at := now }

/-- `complete_todo`: finds the first todo with the id (`next(...)`) and
mutates it in place to `"completed"`, unconditionally on its previous
status. -/
def complete_todo (todo_id : String) (completion_notes : Option String)
    (now : String) (st : List Todo) : CompleteTodoResult × List Todo :=
  match st.find? (fun t => t.id == todo_id) with
  | none => (.error ("Todo " ++ todo_id ++ " not found"), st)
  | some t =>
    (.success (completedTodo t completion_notes now),
     updateFirst (fun u => u.id == todo_id) (fun _ => completedTodo t completion_notes now) st)

/-- `priority_order.get(x["priority"], 3)`. -/
def priorityRank (p : String) : ℕ :=
  if p == "high" then 0 else if p == "medium" then 1 else if p == "low" then 2 else 3

/-- `x.get("due_date") or "9999-99-99"`. -/
def dueKey (t : Todo) : String := pyOrElse t.due_date "9999-99-99"

/-- The sort key tuple of `get_todos_by_category`; Python compares these
tuples lexicographically, strings by code points. -/
def todoSortKey (t : Todo) : ℕ ×ₗ List Char :=
  toLex (priorityRank t.priority, strKey (dueKey t))

/-- The filter stage of `get_todos_by_category`: category is compared
case-insensitively, status and priority case-sensitively. -/
def todosFiltered (category : Option String) (status : String)
    (priority : Option String) (st : List Todo) : List Todo :=
  let f1 :=
    match category with
    | some c =>
      if c.data.isEmpty then st
      else st.filter (fun t => pyLower t.category == pyLower c)
    | none => st
  let f2 := if status != "all" then f1.filter (fun t => t.status == status) else f1
  match priority with
  | some p => if p.data.isEmpty then f2 else f2.filter (fun t => t.priority == p)
  | none => f2

/-- `get_todos_by_category`: filter, stable sort by the key tuple,
truncate to `limit`.  The body has no failing operation on well-typed
records; the `except` branch of this handler returns `[]`, not the
error dict. -/
def get_todos_by_category (category : Option String) (status : String)
    (priority : Option String) (limit : ℕ) (st : List Todo) : List Todo :=
  (stableSort (keyLt todoSortKey) (todosFiltered category status priority st)).take limit

/-! ## Planning manager: goals -/

/-- An entry of `MOCK_GOALS`, as built by `set_goal` and mutated in
place by `get_goals_progress`.  `urgency` models a key absent until
`get_goals_progress` writes it. -/
structure Goal where
  id : String
  title : String
  description : String
  category : String
  target_value : ℚ
  current_value : ℚ
  target_date : String
  measurement_unit : Option String
  status : String
  created_at : String
  progress_percentage : ℚ
  urgency : Option String := none
deriving DecidableEq

/-- `set_goal`: appends an active goal with id
`f"goal_{len(MOCK_GOALS) + 1}"`, `current_value = 0` and
`progress_percentage = 0`.  The body has no failing operation. -/
def set_goal (title description category : String) (target_value : ℚ)
    (target_date : String) (measurement_unit : Option String) (now : String)
    (st : List Goal) : Goal × List Goal :=
  let goal : Goal :=
    { id := "goal_" ++ decRepr (st.length + 1)
      title := title
      description := description
      category := category
      target_value := target_value
      current_value := 0
      target_date := target_date
      measurement_unit := measurement_unit
      status := "active"
      created_at := now
      progress_percentage := 0 }
  (goal, st ++ [goal])

/-- The filter of `get_goals_progress`. -/
def goalMatches (goal_id : Option String) (status : String) (g : Goal) : Bool :=
  (match goal_id with
   | some gid => if gid.data.isEmpty then true else g.id == gid
   | none => true) &&
  (if status != "all" then g.status == status else true)

/-- The in-place mutation of one goal by the loop of
`get_goals_progress`.  `error` carries the state of the goal when the
body raises: division by a zero `target_value` happens after
`current_value` was assigned, and `fromisoformat` of a malformed
`target_date` after `progress_percentage` was assigned too. -/
def processGoal (nowDays : ℤ) (g : Goal) : Except Goal Goal :=
  if g.status == "active" then
    let g1 := { g with current_value := g.target_value * (65 / 100) }
    if g.target_value = 0 then .error g1
    else
      let g2 := { g1 with progress_percentage := g1.current_value / g.target_value * 100 }
      match parseIsoDate g.target_date with
      | none => .error g2
      | some ymd =>
        let days_remaining := (rataDie ymd : ℤ) - nowDays
        .ok
          { g2 with
              urgency := some
                (if days_remaining < 7 then "high"
                 else if days_remaining < 14 then "medium" else "low") }
  else .ok g

/-- The loop of `get_goals_progress` over the store: the filtered list
aliases the stored dicts, so every mutation lands in the store; on a
raise the loop stops, the store keeping all mutations made so far. -/
def ggpLoop (nowDays : ℤ) (p : Goal → Bool) : List Goal →
    Except (List Goal) (List Goal × List Goal)
  | [] => .ok ([], [])
  | g :: rest =>
    if p g then
      match processGoal nowDays g with
      | .error g2 => .error (g2 :: rest)
      | .ok g2 =>
        match ggpLoop nowDays p rest with
        | .ok (rest2, out) => .ok (g2 :: rest2, g2 :: out)
        | .error rest2 => .error (g2 :: rest2)
    else
      match ggpLoop nowDays p rest with
      | .ok (rest2, out) => .ok (g :: rest2, out)
      | .error rest2 => .error (g :: rest2)

/-- `get_goals_progress`: returns the filtered (and mutated) goals; the
`except` branch of this handler returns `[]`, not the error dict.
`nowDays` is the day number of `datetime.now()`. -/
def get_goals_progress (goal_id : Option String) (status : String)
    (nowDays : ℤ) (st : List Goal) : List Goal × List Goal :=
  match ggpLoop nowDays (goalMatches goal_id status) st with
  | .ok (st2, out) => (out, st2)
  | .error st2 => ([], st2)

/-- Whether the body of `get_goals_progress` raises (and the `except`
branch runs) on these arguments. -/
def ggpRaises (goal_id : Option String) (status : String) (nowDays : ℤ)
    (st : List Goal) : Bool :=
  match ggpLoop nowDays (goalMatches goal_id status) st with
  | .ok _ => false
  | .error _ => true

/-! ## Planning manager: habits -/

/-- An entry of `MOCK_HABITS`, as built by `create_habit` and mutated by
`log_habit_completion`. -/
structure Habit where
  id : String
  name : String
  description : Option String
  frequency : String
  target_count : ℤ
  reminder_time : Option String
  current_streak : ℕ
  best_streak : ℕ
  total_completions : ℕ
  status : String
  created_at : String
  last_completed : Option String := none
  updated_at : Option String := none
deriving DecidableEq

/-- `create_habit`: appends an active habit with id
`f"habit_{len(MOCK_HABITS) + 1}"` and all counters 0.  The body has no
failing operation. -/
def create_habit (name : String) (description : Option String)
    (frequency : String) (target_count : ℤ) (reminder_time : Option String)
    (now : String) (st : List Habit) : Habit × List Habit :=
  let habit : Habit :=
    { id := "habit_" ++ decRepr (st.length + 1)
      name := name
      description := description
      frequency := frequency
      target_count := target_count
      reminder_time := reminder_time
      current_streak := 0
      best_streak := 0
      total_completions := 0
      status := "active"
      created_at := now }
  (habit, st ++ [habit])

/-- Result of `log_habit_completion`: the success dict carrying the
mutated habit, or the not-found error dict. -/
inductive LogHabitResult where
  | success (habit : Habit)
  | error (msg : String)
deriving DecidableEq

/-- `log_habit_completion`: finds the first habit with the id and bumps
its counters in place; `best_streak` is raised to `current_streak` when
overtaken. -/
def log_habit_completion (habit_id : String) (date : Option String)
    (today now : String) (st : List Habit) : LogHabitResult × List Habit :=
  match st.find? (fun h => h.id == habit_id) with
  | none => (.error ("Habit " ++ habit_id ++ " not found"), st)
  | some h =>
    let completion_date := pyOrElse date today
    let newStreak := h.current_streak + 1
    let h2 : Habit :=
      { h with
          total_completions := h.total_completions + 1
          current_streak := newStreak
          best_streak := if h.best_streak < newStreak then newStreak else h.best_streak
          last_completed := some completion_date
          updated_at := some now }
    (.success h2, updateFirst (fun x => x.id == habit_id) (fun _ => h2) st)

/-- One habit operation, used to reason about arbitrary histories of
`create_habit` and `log_habit_completion` calls. -/
inductive HabitOp where
  | create (name : String) (description : Option String) (frequency : String)
      (target_count : ℤ) (reminder_time : Option String) (now : String)
  | log (habit_id : String) (date : Option String) (today now : String)

/-- Effect of one habit operation on the store. -/
def applyHabitOp (st : List Habit) : HabitOp → List Habit
  | .create name description frequency target_count reminder_time now =>
    (create_habit name description frequency target_count reminder_time now st).2
  | .log habit_id date today now => (log_habit_completion habit_id date today now st).2

/-- The habit store after a history of operations, starting from the
empty `MOCK_HABITS`. -/
def runHabitOps (ops : List HabitOp) : List Habit :=
  ops.foldl applyHabitOp []

/-! ## Shopping manager (`shopping_manager.py`): `find_coupons` -/

/-- A coupon dict of the mock list inside `find_coupons`. -/
structure Coupon where
  store : String
  code : String
  discount : String
  category : String
  expiry_date : String
  description : String
deriving DecidableEq

/-- The `mock_coupons` list of `find_coupons`. -/
def mock_coupons : List Coupon :=
  [{ store := "Spar", code := "SPAR10", discount := "10% off",
     category := "All items", expiry_date := "2025-12-31",
     description := "Valid on all purchases over €20" },
   { store := "Billa", code := "BILLA5", discount := "€5 off",
     category := "Fruits & Vegetables", expiry_date := "2025-12-25",
     description := "Valid on seasonal produce" }]

/-- `find_coupons`: the store filter is a case-insensitive equality, the
category filter a case-insensitive substring test
(`category.lower() in c["category"].lower()`).  The body has no failing
operation. -/
def find_coupons (store_name category : Option String) : List Coupon :=
  let f1 :=
    match store_name with
    | some s =>
      if s.data.isEmpty then mock_coupons
      else mock_coupons.filter (fun c => pyLower c.store == pyLower s)
    | none => mock_coupons
  match category with
  | some cat =>
    if cat.data.isEmpty then f1
    else f1.filter (fun c => decide (pySubstr (pyLower cat) (pyLower c.category)))
  | none => f1

/-! ## Specification-side definitions and concrete fixtures -/

/-- Extension of a category aggregate by a further list of expenses;
used to state the correctness of the single-pass grouping loop. -/
def extendAgg (agg : CatAgg) (c : String) (l : List Expense) : CatAgg :=
  { count := agg.count + catCount c l
    total := agg.total + catTotal c l
    expenses := agg.expenses ++ catBriefs c l }

/-- The ordering the spec claims for `get_todos_by_category` with no
filters: by priority rank first, then by due date ascending with a
missing due date after every present one. -/
def claimedTodoOrder (a b : Todo) : Prop :=
  priorityRank a.priority < priorityRank b.priority ∨
  (priorityRank a.priority = priorityRank b.priority ∧
    match a.due_date, b.due_date with
    | some da, some db => strKey da ≤ strKey db
    | some _, none => True
    | none, none => True
    | none, some _ => False)

/-- A present due date is a nonempty string below the `"9999-99-99"`
sentinel in code-point order; every `YYYY-MM-DD` date satisfies this. -/
def dueOkP (t : Todo) : Prop :=
  match t.due_date with
  | some d => d.data.isEmpty = false ∧ strKey d < strKey "9999-99-99"
  | none => True

instance (t : Todo) : Decidable (dueOkP t) := by
  unfold dueOkP
  cases t.due_date <;> infer_instance

/-- History: add two expenses, then delete the first with confirmation.
The store afterwards holds only `exp_2`. -/
def expHist3 : List ExpOp :=
  [.add 10 "lunch" "Food" (some "2025-01-01") none none "2025-01-01" "t1",
   .add 20 "groceries" "Food" (some "2025-01-02") none none "2025-01-02" "t2",
   .del "exp_1" true]

/-- `expHist3` followed by one more add: its id collides with the
surviving `exp_2`. -/
def expHist4 : List ExpOp :=
  expHist3 ++ [.add 30 "dinner" "Food" (some "2025-01-03") none none "2025-01-03" "t3"]

/-- A first todo without a due date, created into an empty store. -/
def todoNoDue : Todo :=
  (create_todo "A" none "General" "medium" none none "2025-01-01T00:00:00" []).1

/-- A second todo whose due date string `"Z"` sorts above the
`"9999-99-99"` sentinel. -/
def todoDueZ : Todo :=
  (create_todo "B" none "General" "medium" (some "Z") none "2025-01-01T00:00:00"
    (create_todo "A" none "General" "medium" none none "2025-01-01T00:00:00" []).2).1

/-- The two-todo store holding `todoNoDue` then `todoDueZ`. -/
def storeDueZ : List Todo :=
  (create_todo "B" none "General" "medium" (some "Z") none "2025-01-01T00:00:00"
    (create_todo "A" none "General" "medium" none none "2025-01-01T00:00:00" []).2).2

/-- A one-todo store whose todo has priority `"high"`. -/
def storeHigh : List Todo :=
  (create_todo "Pay rent" none "General" "high" none none "2025-01-01T00:00:00" []).2

/-- The todo inside `storeHigh`. -/
def todoHigh : Todo :=
  (create_todo "Pay rent" none "General" "high" none none "2025-01-01T00:00:00" []).1

/-- The two-todo store of the spec's ordering scenario: a high-priority
todo due `2025-01-01`, then a low-priority one with no due date. -/
def storePayRent : List Todo :=
  (create_todo "Read book" none "General" "low" none none "2025-01-01T00:00:00"
    (create_todo "Pay rent" none "General" "high" (some "2025-01-01") none
      "2025-01-01T00:00:00" []).2).2

/-- The expense store of the spec's scenario: one `Food` expense of
42.50 created into an empty store. -/
def storeFood : List Expense :=
  (add_expense 42.5 "Groceries" "Food" (some "2025-01-10") none none
    "2025-01-15" "2025-01-15T12:00:00" []).2

/-- The aggregate the scenario expects for the `Food` category. -/
def foodAgg : CatAgg :=
  { count := 1, total := 42.5,
    expenses := [{ id := "exp_1", amount := 42.5, description := "Groceries",
                   date := "2025-01-10" }] }

/-- A concrete clock for exercising `analyze_spending_patterns`. -/
def clockJune : Clock :=
  { todayStr := "2025-06-01", minusDays := fun _ => "2025-05-02" }

/-- A goal store whose single active goal has a malformed
`target_date`, reachable through `set_goal` (which validates nothing). -/
def goalsBadDate : List Goal :=
  (set_goal "Read" "Read 12 books" "Personal" 12 "not-a-date" none
    "2025-01-01T00:00:00" []).2

/-- A budget store with one `Food`/`monthly` budget of 200. -/
def storeBudget : List (String × Budget) :=
  (set_budget "Food" 200 "monthly" 80 "2025-01-01T00:00:00" []).2

theorem insertSorted_perm {α : Type} (lt : α → α → Bool) (x : α) (l : List α) :
    List.Perm (insertSorted lt x l) (x :: l) := by
  induction l with
  | nil => rfl
  | cons y ys ih =>
    unfold insertSorted
    by_cases h : lt y x = true
    · simp only [h, if_true]
      exact ((ih.cons y).trans (List.Perm.swap x y ys))
    · simp [h]

theorem stableSort_perm {α : Type} (lt : α → α → Bool) (l : List α) :
    List.Perm (stableSort lt l) l := by
  induction l with
  | nil => rfl
  | cons x xs ih => exact (insertSorted_perm lt x (stableSort lt xs)).trans (ih.cons x)

theorem mem_stableSort {α : Type} {lt : α → α → Bool} {x : α} {l : List α} :
    x ∈ stableSort lt l ↔ x ∈ l :=
  (stableSort_perm lt l).mem_iff

theorem pairwise_insertSorted {α κ : Type} [LinearOrder κ] (key : α → κ) (x : α)
    {l : List α} (h : l.Pairwise (fun a b => key a ≤ key b)) :
    (insertSorted (keyLt key) x l).Pairwise (fun a b => key a ≤ key b) := by
  induction l with
  | nil => simp [insertSorted]
  | cons y ys ih =>
    unfold insertSorted
    by_cases hyx : keyLt key y x = true
    · simp only [hyx, if_true]
      have hlt : key y < key x := of_decide_eq_true hyx
      refine List.pairwise_cons.2 ⟨?_, ih (List.pairwise_cons.1 h).2⟩
      intro z hz
      rcases List.mem_cons.1 ((insertSorted_perm (keyLt key) x ys).mem_iff.1 hz) with rfl | hzys
      · exact le_of_lt hlt
      · exact (List.pairwise_cons.1 h).1 z hzys
    · simp only [hyx, if_false]
      have hle : key x ≤ key y := le_of_not_lt (of_decide_eq_false (Bool.not_eq_true _ ▸ hyx))
      refine List.pairwise_cons.2 ⟨?_, h⟩
      intro z hz
      rcases List.mem_cons.1 hz with rfl | hzys
      · exact hle
      · exact hle.trans ((List.pairwise_cons.1 h).1 z hzys)

theorem pairwise_stableSort {α κ : Type} [LinearOrder κ] (key : α → κ) (l : List α) :
    (stableSort (keyLt key) l).Pairwise (fun a b => key a ≤ key b) := by
  induction l with
  | nil => simp [stableSort]
  | cons x xs ih => exact pairwise_insertSorted key x ih

theorem decDigitsAux_ofDigits : ∀ fuel n, n ≤ fuel →
    Nat.ofDigits 10 (decDigitsAux fuel n) = n := by
  intro fuel
  induction fuel with
  | zero =>
    intro n h
    have : n = 0 := Nat.le_zero.1 h
    simp [this, decDigitsAux, Nat.ofDigits]
  | succ f ih =>
    intro n h
    cases n with
    | zero => simp [decDigitsAux, Nat.ofDigits]
    | succ m =>
      have hlt : (m + 1) / 10 < m + 1 := Nat.div_lt_self (Nat.succ_pos m) (by norm_num)
      have hle : (m + 1) / 10 ≤ f := by omega
      simp only [decDigitsAux, Nat.ofDigits_cons, ih _ hle]
      have := Nat.mod_add_div (m + 1) 10
      omega

theorem decDigits_ofDigits (n : ℕ) : Nat.ofDigits 10 (decDigits n) = n :=
  decDigitsAux_ofDigits n n le_rfl

theorem decDigitsAux_lt : ∀ fuel n, ∀ d ∈ decDigitsAux fuel n, d < 10 := by
  intro fuel
  induction fuel with
  | zero => intro n d hd; simp [decDigitsAux] at hd
  | succ f ih =>
    intro n d hd
    cases n with
    | zero => simp [decDigitsAux] at hd
    | succ m =>
      simp only [decDigitsAux, List.mem_cons] at hd
      rcases hd with rfl | hd
      · exact Nat.mod_lt _ (by norm_num)
      · exact ih _ d hd

theorem decDigits_lt (n : ℕ) : ∀ d ∈ decDigits n, d < 10 :=
  decDigitsAux_lt n n

theorem digitChar_injOn : ∀ a < 10, ∀ b < 10, Nat.digitChar a = Nat.digitChar b → a = b := by
  decide

theorem asString_inj {l m : List Char} (h : l.asString = m.asString) : l = m := by
  simpa [List.asString] using congrArg String.data h

theorem map_digitChar_inj : ∀ l m : List ℕ, (∀ x ∈ l, x < 10) → (∀ x ∈ m, x < 10) →
    l.map Nat.digitChar = m.map Nat.digitChar → l = m := by
  intro l
  induction l with
  | nil =>
    intro m _ _ he
    cases m with
    | nil => rfl
    | cons b bs => simp at he
  | cons a as ih =>
    intro m hl hm he
    cases m with
    | nil => simp at he
    | cons b bs =>
      simp only [List.map_cons, List.cons.injEq] at he
      have ha : a = b := digitChar_injOn a (hl a (by simp)) b (hm b (by simp)) he.1
      have : as = bs := ih bs (fun x hx => hl x (by simp [hx])) (fun x hx => hm x (by simp [hx])) he.2
      simp [ha, this]

theorem decRepr_inj : Function.Injective decRepr := by
  intro a b h
  unfold decRepr at h
  by_cases ha : a = 0 <;> by_cases hb : b = 0
  · simp [ha, hb]
  · exfalso
    simp only [ha, if_true, hb, if_false] at h
    have hd := asString_inj (l := ['0']) (by simpa [List.asString] using h)
    have := map_digitChar_inj [0] (decDigits b).reverse (by simp)
      (by intro x hx; exact decDigits_lt b x (List.mem_reverse.1 hx))
      (by simpa using hd)
    have hb0 : decDigits b = [0] := by
      have hrev : (decDigits b).reverse = [0] := this.symm
      simpa using congrArg List.reverse hrev
    have := decDigits_ofDigits b
    rw [hb0] at this
    simp [Nat.ofDigits] at this
    exact hb this.symm
  · exfalso
    simp only [ha, if_false, hb, if_true] at h
    have hd := asString_inj (m := ['0']) (by simpa [List.asString] using h)
    have := map_digitChar_inj (decDigits a).reverse [0]
      (by intro x hx; exact decDigits_lt a x (List.mem_reverse.1 hx))
      (by simp) (by simpa using hd)
    have ha0 : decDigits a = [0] := by simpa using congrArg List.reverse this
    have := decDigits_ofDigits a
    rw [ha0] at this
    simp [Nat.ofDigits] at this
    exact ha this.symm
  · simp only [ha, if_false, hb, if_false] at h
    have hd := asString_inj h
    have := map_digitChar_inj (decDigits a).reverse (decDigits b).reverse
      (by intro x hx; exact decDigits_lt a x (List.mem_reverse.1 hx))
      (by intro x hx; exact decDigits_lt b x (List.mem_reverse.1 hx)) hd
    have hab : decDigits a = decDigits b := by
      simpa using congrArg List.reverse this
    calc a = Nat.ofDigits 10 (decDigits a) := (decDigits_ofDigits a).symm
    _ = Nat.ofDigits 10 (decDigits b) := by rw [hab]
    _ = b := decDigits_ofDigits b

theorem string_append_left_cancel {s a b : String} (h : s ++ a = s ++ b) : a = b := by
  have := congrArg String.data h
  rw [String.data_append, String.data_append] at this
  have hd := List.append_cancel_left this
  cases a; cases b; exact congrArg String.mk hd

theorem mkExpId_inj : Function.Injective mkExpId := by
  intro a b h
  exact decRepr_inj (string_append_left_cancel h)

theorem expIdRange_nodup (n : ℕ) : (expIdRange n).Nodup := by
  unfold expIdRange
  exact (List.nodup_range n).map (fun a b h => by
    have := mkExpId_inj h
    omega)

theorem add_preserves_idRange {st : List Expense}
    (h : st.map Expense.id = expIdRange st.length)
    (amount : ℚ) (description category : String)
    (date store payment_method : Option String) (today now : String) :
    ((add_expense amount description category date store payment_method today now st).2).map
        Expense.id
      = expIdRange ((add_expense amount description category date store payment_method
          today now st).2).length := by
  simp only [add_expense, List.map_append, List.length_append, h]
  simp [expIdRange, List.range_succ]

/-- Over an all-adds history the ids are exactly `exp_1 ... exp_n`. -/
theorem runExpOps_addOnly_idRange :
    ∀ ops : List ExpOp, (∀ op ∈ ops, op.isAdd = true) →
      (runExpOps ops).map Expense.id = expIdRange (runExpOps ops).length := by
  suffices h : ∀ (ops : List ExpOp) (st : List Expense),
      (∀ op ∈ ops, op.isAdd = true) →
      st.map Expense.id = expIdRange st.length →
      (ops.foldl applyExpOp st).map Expense.id = expIdRange (ops.foldl applyExpOp st).length by
    intro ops hops
    exact h ops [] hops (by simp [expIdRange])
  intro ops
  induction ops with
  | nil => intro st _ hst; simpa using hst
  | cons op rest ih =>
    intro st hops hst
    cases op with
    | add amount description category date store payment_method today now =>
      exact ih (applyExpOp st (.add amount description category date store payment_method
        today now)) (fun o ho => hops o (by simp [ho]))
        (add_preserves_idRange hst amount description category date store payment_method
          today now)
    | del expense_id confirm =>
      exact absurd (hops (.del expense_id confirm) (by simp)) (by simp [ExpOp.isAdd])

/-! ## General lemmas about the store primitives -/

theorem mem_updateFirst {α : Type} {p : α → Bool} {f : α → α} {a : α} :
    ∀ {l : List α}, a ∈ updateFirst p f l → a ∈ l ∨ ∃ b ∈ l, a = f b := by
  intro l
  induction l with
  | nil => intro h; simp [updateFirst] at h
  | cons x xs ih =>
    intro h
    unfold updateFirst at h
    by_cases hx : p x = true
    · simp only [hx, if_true] at h
      rcases List.mem_cons.1 h with rfl | hxs
      · exact Or.inr ⟨x, by simp⟩
      · exact Or.inl (by simp [hxs])
    · simp only [hx, if_false] at h
      rcases List.mem_cons.1 h with rfl | hxs
      · exact Or.inl (by simp)
      · rcases ih hxs with hm | ⟨b, hb, rfl⟩
        · exact Or.inl (by simp [hm])
        · exact Or.inr ⟨b, by simp [hb]⟩

theorem find?_updateFirst {α : Type} {p : α → Bool} {f : α → α}
    (hpf : ∀ a, p a = true → p (f a) = true) :
    ∀ l : List α, (updateFirst p f l).find? p = (l.find? p).map f := by
  intro l
  induction l with
  | nil => simp [updateFirst]
  | cons x xs ih =>
    unfold updateFirst
    by_cases hx : p x = true
    · simp [hx, List.find?_cons, hpf x hx]
    · simp [List.find?_cons, hx, ih]

/-! ## C4 -/

/-- C4: a `delete_expense` call with `confirm` not equal to true leaves
the expense store unchanged and returns the `{"error": ...}` payload,
whether or not the id exists — the confirmation check precedes the
lookup. -/
theorem delete_without_confirm_unchanged (expense_id : String) (st : List Expense) :
    (delete_expense expense_id false st).2 = st ∧
      (delete_expense expense_id false st).1.isErr = true := by
  constructor <;> rfl

/-! ## C1 and C2: id assignment -/

/-- C1 counterexample: after `add, add, delete exp_1` the store's ids
are `["exp_2"]`, so `max(existing_ids) + 1` is 3; yet the next
`add_expense` assigns `f"exp_{len + 1}" = "exp_2"`, not `"exp_3"`. -/
theorem add_after_delete_not_max_plus_one :
    (runExpOps expHist3).map Expense.id = ["exp_2"] ∧
      (add_expense 30 "dinner" "Food" (some "2025-01-03") none none "2025-01-03" "t3"
          (runExpOps expHist3)).1.id = "exp_2" ∧
      ("exp_2" : String) ≠ "exp_3" := by
  refine ⟨by decide, by decide, by decide⟩

/-- C1 as amended: `add_expense` always assigns
`f"exp_{n+1}"` for `n` the current store size; over histories of adds
only the stored ids are exactly `exp_1 ... exp_n`, so there the
assigned id coincides with `max(existing_ids) + 1` (and with `exp_1`
on the empty store). -/
theorem add_assigns_len_plus_one (ops : List ExpOp)
    (hadd : ∀ op ∈ ops, op.isAdd = true)
    (amount : ℚ) (description category : String)
    (date store payment_method : Option String) (today now : String) :
    (add_expense amount description category date store payment_method today now
        (runExpOps ops)).1.id = mkExpId ((runExpOps ops).length + 1) ∧
      ((add_expense amount description category date store payment_method today now
          (runExpOps ops)).2).map Expense.id = expIdRange ((runExpOps ops).length + 1) := by
  constructor
  · rfl
  · have h := runExpOps_addOnly_idRange ops hadd
    simp only [add_expense, List.map_append, h]
    simp [expIdRange, List.range_succ]

/-- Witness for the amended C1 at the one-add history. -/
theorem add_assigns_len_plus_one_witness :
    (add_expense 30 "dinner" "Food" (some "2025-01-03") none none "2025-01-03" "t3"
        (runExpOps [ExpOp.add 10 "lunch" "Food" (some "2025-01-01") none none
          "2025-01-01" "t1"])).1.id
      = mkExpId ((runExpOps [ExpOp.add 10 "lunch" "Food" (some "2025-01-01") none none
          "2025-01-01" "t1"]).length + 1) ∧
      ((add_expense 30 "dinner" "Food" (some "2025-01-03") none none "2025-01-03" "t3"
          (runExpOps [ExpOp.add 10 "lunch" "Food" (some "2025-01-01") none none
            "2025-01-01" "t1"])).2).map Expense.id
        = expIdRange ((runExpOps [ExpOp.add 10 "lunch" "Food" (some "2025-01-01") none none
            "2025-01-01" "t1"]).length + 1) :=
  add_assigns_len_plus_one _ (by decide) 30 "dinner" "Food" (some "2025-01-03") none none
    "2025-01-03" "t3"

/-- C2 counterexample: the reachable history `add, add, delete exp_1,
add` leaves two stored expenses that share the id `"exp_2"`. -/
theorem expense_ids_collide :
    (runExpOps expHist4).map Expense.id = ["exp_2", "exp_2"] ∧
      ¬ ((runExpOps expHist4).map Expense.id).Nodup := by
  refine ⟨by decide, by decide⟩

/-- C2 as amended: ids are pairwise distinct over histories of adds
only, and no operation ever rewrites a stored expense — the store after
an operation is a sublist of the old store extended by the record the
operation created, so every surviving record (its id included) is
unchanged.  After a delete, however, a later add can duplicate an id. -/
theorem expense_ids_nodup_and_stable :
    (∀ ops : List ExpOp, (∀ op ∈ ops, op.isAdd = true) →
        ((runExpOps ops).map Expense.id).Nodup) ∧
      ∀ (st : List Expense) (op : ExpOp),
        ∃ created : List Expense, (applyExpOp st op).Sublist (st ++ created) := by
  constructor
  · intro ops hadd
    rw [runExpOps_addOnly_idRange ops hadd]
    exact expIdRange_nodup _
  · intro st op
    cases op with
    | add amount description category date store payment_method today now =>
      exact ⟨[(add_expense amount description category date store payment_method today now
        st).1], List.Sublist.refl _⟩
    | del expense_id confirm =>
      refine ⟨[], ?_⟩
      rw [List.append_nil]
      cases confirm with
      | false => exact List.Sublist.refl _
      | true =>
        simp only [applyExpOp, delete_expense]
        cases hf : st.find? (fun e => e.id == expense_id) with
        | none => simp [List.Sublist.refl]
        | some e => simp [List.erase_sublist]

/-- Witness for the amended C2 at a two-add history and one delete
step. -/
theorem expense_ids_nodup_and_stable_witness :
    ((runExpOps [ExpOp.add 10 "lunch" "Food" (some "2025-01-01") none none "2025-01-01" "t1",
        ExpOp.add 20 "groceries" "Food" (some "2025-01-02") none none "2025-01-02"
          "t2"]).map Expense.id).Nodup ∧
      ∃ created : List Expense,
        (applyExpOp (runExpOps expHist3) (.del "exp_2" true)).Sublist
          (runExpOps expHist3 ++ created) :=
  ⟨expense_ids_nodup_and_stable.1 _ (by decide),
   expense_ids_nodup_and_stable.2 (runExpOps expHist3) (.del "exp_2" true)⟩

/-! ## C5: `complete_todo` idempotence -/

theorem complete_todo_of_find? {st : List Todo} {todo_id : String} {t : Todo}
    (notes : Option String) (now : String)
    (hf : st.find? (fun u => u.id == todo_id) = some t) :
    complete_todo todo_id notes now st =
      (.success (completedTodo t notes now),
       updateFirst (fun u => u.id == todo_id) (fun _ => completedTodo t notes now) st) := by
  simp [complete_todo, hf]

theorem find?_after_complete {st : List Todo} {todo_id : String} {t : Todo}
    (notes : Option String) (now : String)
    (hf : st.find? (fun u => u.id == todo_id) = some t) :
    (complete_todo todo_id notes now st).2.find? (fun u => u.id == todo_id)
      = some (completedTodo t notes now) := by
  have hp : (t.id == todo_id) = true := by simpa using List.find?_some hf
  rw [complete_todo_of_find? notes now hf]
  have := find?_updateFirst (p := fun u : Todo => u.id == todo_id)
    (f := fun _ => completedTodo t notes now) (fun a _ => hp) st
  rw [this, hf]
  rfl

/-- C5: `complete_todo` is idempotent — for any id present in the todo
store, completing it twice ends with the targeted todo's status
`"completed"` after each call, and the second call still returns the
success payload (the handler overwrites the status unconditionally and
never checks it). -/
theorem complete_todo_idempotent (st : List Todo) (todo_id : String)
    (notes1 notes2 : Option String) (now1 now2 : String)
    (h : (st.find? (fun t => t.id == todo_id)).isSome = true) :
    (complete_todo todo_id notes1 now1 st).1.isSuccess = true ∧
      (∃ t1, (complete_todo todo_id notes1 now1 st).2.find? (fun t => t.id == todo_id)
          = some t1 ∧ t1.status = "completed") ∧
      (complete_todo todo_id notes2 now2
          (complete_todo todo_id notes1 now1 st).2).1.isSuccess = true ∧
      ∃ t2, (complete_todo todo_id notes2 now2
            (complete_todo todo_id notes1 now1 st).2).2.find? (fun t => t.id == todo_id)
          = some t2 ∧ t2.status = "completed" := by
  obtain ⟨t, hf⟩ := Option.isSome_iff_exists.1 h
  have h1 := complete_todo_of_find? notes1 now1 hf
  have hfind1 := find?_after_complete notes1 now1 hf
  have h2 := complete_todo_of_find? notes2 now2 hfind1
  have hfind2 := find?_after_complete notes2 now2 hfind1
  refine ⟨by rw [h1]; rfl, ⟨completedTodo t notes1 now1, hfind1, rfl⟩,
    by rw [h2]; rfl, ⟨completedTodo (completedTodo t notes1 now1) notes2 now2, hfind2, rfl⟩⟩

/-- Witness for C5 on the one-todo store. -/
theorem complete_todo_idempotent_witness :
    (complete_todo "todo_1" none "n1" storeHigh).1.isSuccess = true ∧
      (∃ t1, (complete_todo "todo_1" none "n1" storeHigh).2.find?
          (fun t => t.id == "todo_1") = some t1 ∧ t1.status = "completed") ∧
      (complete_todo "todo_1" (some "done") "n2"
          (complete_todo "todo_1" none "n1" storeHigh).2).1.isSuccess = true ∧
      ∃ t2, (complete_todo "todo_1" (some "done") "n2"
            (complete_todo "todo_1" none "n1" storeHigh).2).2.find?
          (fun t => t.id == "todo_1") = some t2 ∧ t2.status = "completed" :=
  complete_todo_idempotent storeHigh "todo_1" none (some "done") "n1" "n2" (by decide)

/-! ## C9: habit streak invariant -/

theorem habit_inv_step (st : List Habit)
    (hinv : ∀ x ∈ st, x.current_streak ≤ x.best_streak) (op : HabitOp) :
    ∀ x ∈ applyHabitOp st op, x.current_streak ≤ x.best_streak := by
  cases op with
  | create name description frequency target_count reminder_time now =>
    intro x hx
    simp only [applyHabitOp, create_habit, List.mem_append] at hx
    rcases hx with hx | hx
    · exact hinv x hx
    · simp only [List.mem_singleton] at hx
      subst hx
      exact le_rfl
  | log habit_id date today now =>
    intro x hx
    simp only [applyHabitOp, log_habit_completion] at hx
    cases hf : st.find? (fun h => h.id == habit_id) with
    | none => rw [hf] at hx; exact hinv x hx
    | some h0 =>
      rw [hf] at hx
      simp only at hx
      rcases mem_updateFirst hx with hm | ⟨b, _, rfl⟩
      · exact hinv x hm
      · have := hinv h0 (List.mem_of_find?_eq_some hf)
        by_cases hb : h0.best_streak < h0.current_streak + 1
        · simp [hb]
        · simp only [hb, if_false]
          omega

/-- C9: after every history of `create_habit` and
`log_habit_completion` operations, every stored habit satisfies
`current_streak ≤ best_streak` — creation starts both at 0 and logging
raises `best_streak` whenever `current_streak` overtakes it. -/
theorem habit_best_ge_current (ops : List HabitOp) (h : Habit)
    (hm : h ∈ runHabitOps ops) : h.current_streak ≤ h.best_streak := by
  suffices hgen : ∀ (ops : List HabitOp) (st : List Habit),
      (∀ x ∈ st, x.current_streak ≤ x.best_streak) →
      ∀ x ∈ ops.foldl applyHabitOp st, x.current_streak ≤ x.best_streak by
    exact hgen ops [] (by intro x hx; simp at hx) h hm
  intro ops
  induction ops with
  | nil => intro st hinv x hx; exact hinv x hx
  | cons op rest ih =>
    intro st hinv x hx
    exact ih (applyHabitOp st op) (habit_inv_step st hinv op) x hx

/-- Witness for C9 on a two-operation history. -/
theorem habit_best_ge_current_witness :
    (log_habit_completion "habit_1" none "2025-01-02" "t2"
        (create_habit "Run" none "daily" 1 none "t1" []).2).2.all
      (fun h => h.current_streak ≤ h.best_streak) = true := by
  have hrun : runHabitOps [HabitOp.create "Run" none "daily" 1 none "t1",
      HabitOp.log "habit_1" none "2025-01-02" "t2"]
      = (log_habit_completion "habit_1" none "2025-01-02" "t2"
          (create_habit "Run" none "daily" 1 none "t1" []).2).2 := rfl
  rw [List.all_eq_true]
  intro h hm
  exact decide_eq_true
    (habit_best_ge_current [HabitOp.create "Run" none "daily" 1 none "t1",
      HabitOp.log "habit_1" none "2025-01-02" "t2"] h (hrun ▸ hm))

/-! ## C7: string filter semantics -/

/-- C7 counterexample: the priority filter of `get_todos_by_category`
compares case-sensitively — the filter value `"HIGH"` equals the stored
`"high"` up to letter case, yet the record is dropped. -/
theorem priority_filter_case_sensitive :
    get_todos_by_category none "all" (some "HIGH") 20 storeHigh = [] ∧
      todoHigh ∈ storeHigh ∧ todoHigh.priority = "high" ∧
      pyLower "HIGH" = pyLower "high" := by
  refine ⟨by decide, by decide, by decide, by decide⟩

/-- C7 as amended: the `category` filters of `get_todos_by_category`
and `get_expenses_by_category` and the `store_name` filter of
`find_coupons` keep a record exactly when the filter value equals the
field up to letter case; the `priority` and `status` filters of
`get_todos_by_category` compare case-sensitively; the `category` filter
of `find_coupons` is a case-insensitive substring test. -/
theorem string_filter_semantics :
    (∀ (st : List Todo) (c : String) (t : Todo), c.data.isEmpty = false →
        (t ∈ todosFiltered (some c) "all" none st ↔
          t ∈ st ∧ pyLower t.category = pyLower c)) ∧
      (∀ (st : List Todo) (p : String) (t : Todo), p.data.isEmpty = false →
        (t ∈ todosFiltered none "all" (some p) st ↔ t ∈ st ∧ t.priority = p)) ∧
      (∀ (st : List Todo) (s : String) (t : Todo), (s != "all") = true →
        (t ∈ todosFiltered none s none st ↔ t ∈ st ∧ t.status = s)) ∧
      (∀ (st : List Expense) (c : String) (e : Expense), c.data.isEmpty = false →
        (e ∈ expFiltered (some c) none none st ↔
          e ∈ st ∧ pyLower e.category = pyLower c)) ∧
      (∀ (s : String) (c : Coupon), s.data.isEmpty = false →
        (c ∈ find_coupons (some s) none ↔
          c ∈ mock_coupons ∧ pyLower c.store = pyLower s)) ∧
      ∀ (cat : String) (c : Coupon), cat.data.isEmpty = false →
        (c ∈ find_coupons none (some cat) ↔
          c ∈ mock_coupons ∧ pySubstr (pyLower cat) (pyLower c.category)) := by
  refine ⟨?_, ?_, ?_, ?_, ?_, ?_⟩
  · intro st c t hc
    simp [todosFiltered, hc, List.mem_filter]
  · intro st p t hp
    simp [todosFiltered, hp, List.mem_filter]
  · intro st s t hs
    simp [todosFiltered, hs, List.mem_filter]
  · intro st c e hc
    simp [expFiltered, hc, List.mem_filter]
  · intro s c hs
    simp [find_coupons, hs, List.mem_filter]
  · intro cat c hcat
    simp [find_coupons, hcat, List.mem_filter]

/-- Witness for the amended C7 on the one-todo store. -/
theorem string_filter_semantics_witness :
    (todoHigh ∈ todosFiltered (some "GENERAL") "all" none storeHigh ↔
        todoHigh ∈ storeHigh ∧ pyLower todoHigh.category = pyLower "GENERAL") ∧
      (todoHigh ∈ todosFiltered none "all" (some "HIGH") storeHigh ↔
        todoHigh ∈ storeHigh ∧ todoHigh.priority = "HIGH") :=
  ⟨string_filter_semantics.1 storeHigh "GENERAL" todoHigh (by decide),
   string_filter_semantics.2.1 storeHigh "HIGH" todoHigh (by decide)⟩

/-! ## C6: ordering of `get_todos_by_category` -/

/-- C6 counterexample: with a stored due date `"Z"` (never validated by
`create_todo`), the `"9999-99-99"` sentinel for a missing due date
sorts *before* it, so the todo without a due date comes first, not
last. -/
theorem missing_due_before_present :
    get_todos_by_category none "all" none 20 storeDueZ = [todoNoDue, todoDueZ] ∧
      todoNoDue.due_date = none ∧ todoDueZ.due_date = some "Z" := by
  refine ⟨by decide, by decide, by decide⟩

theorem key_le_claimed {a b : Todo} (hda : dueOkP a) (hdb : dueOkP b)
    (h : todoSortKey a ≤ todoSortKey b) : claimedTodoOrder a b := by
  have h' : priorityRank a.priority < priorityRank b.priority ∨
      priorityRank a.priority = priorityRank b.priority ∧
        strKey (dueKey a) ≤ strKey (dueKey b) := by
    simpa [todoSortKey, Prod.Lex.le_iff] using h
  unfold claimedTodoOrder
  rcases h' with h' | ⟨heq, hdue⟩
  · exact Or.inl h'
  · refine Or.inr ⟨heq, ?_⟩
    unfold dueOkP at hda hdb
    cases hca : a.due_date with
    | some da =>
      rw [hca] at hda
      cases hcb : b.due_date with
      | some db =>
        rw [hcb] at hdb
        simpa [dueKey, pyOrElse, hca, hcb, hda.1, hdb.1] using hdue
      | none => trivial
    | none =>
      cases hcb : b.due_date with
      | some db =>
        rw [hcb] at hdb
        exfalso
        simp only [dueKey, pyOrElse, hca, hcb, hdb.1, Bool.false_eq_true, if_false] at hdue
        exact absurd hdue (not_le.2 hdb.2)
      | none => trivial

/-- C6 as amended: provided every present due date is a nonempty string
below the `"9999-99-99"` sentinel in code-point order (true of all
`YYYY-MM-DD` dates), `get_todos_by_category` with no filters returns
its todos sorted by priority rank (high, medium, low, then unknown
priorities) and, within equal rank, by due date ascending with missing
due dates last; when the store fits in `limit`, the result is a
permutation of the whole store.  Due dates at or above the sentinel
break the missing-last guarantee, as the counterexample shows. -/
theorem todos_no_filters_sorted (st : List Todo) (limit : ℕ)
    (hdue : ∀ t ∈ st, dueOkP t) :
    (get_todos_by_category none "all" none limit st).Pairwise claimedTodoOrder ∧
      (st.length ≤ limit →
        List.Perm (get_todos_by_category none "all" none limit st) st) := by
  have hfl : todosFiltered none "all" none st = st := rfl
  constructor
  · have hsort := pairwise_stableSort todoSortKey st
    have htake : List.Sublist ((stableSort (keyLt todoSortKey) st).take limit)
        (stableSort (keyLt todoSortKey) st) := List.take_sublist limit _
    have hpair := hsort.sublist htake
    unfold get_todos_by_category
    rw [hfl]
    refine hpair.imp_of_mem ?_
    intro a b ha hb hle
    have ha2 : a ∈ st := mem_stableSort.1 (htake.subset ha)
    have hb2 : b ∈ st := mem_stableSort.1 (htake.subset hb)
    exact key_le_claimed (hdue a ha2) (hdue b hb2) hle
  · intro hlen
    unfold get_todos_by_category
    rw [hfl]
    have hlen2 : (stableSort (keyLt todoSortKey) st).length ≤ limit := by
      rw [(stableSort_perm (keyLt todoSortKey) st).length_eq]
      exact hlen
    rw [List.take_of_length_le hlen2]
    exact stableSort_perm _ st

/-- Witness for the amended C6 on the spec's two-todo scenario store. -/
theorem todos_no_filters_sorted_witness :
    (get_todos_by_category none "all" none 20 storePayRent).Pairwise claimedTodoOrder ∧
      (storePayRent.length ≤ 20 →
        List.Perm (get_todos_by_category none "all" none 20 storePayRent) storePayRent) :=
  todos_no_filters_sorted storePayRent 20 (by decide)

/-! ## C3: the response-shape contract -/

/-- C3 counterexample: on the happy path `analyze_spending_patterns`
returns the bare analysis mapping, which has neither a `"success"` key
nor an `"error"` key and is not a list, so it matches none of the three
shapes the claim allows. -/
theorem analyze_returns_bare_mapping :
    analyzeShape (analyze_spending_patterns "month" "trends" clockJune []) =
        RespShape.plainObj ∧
      RespShape.plainObj ≠ RespShape.successObj ∧
      RespShape.plainObj ≠ RespShape.payloadList ∧
      RespShape.plainObj ≠ RespShape.errorObj := by
  refine ⟨by decide, by decide, by decide, by decide⟩

/-- C3 as amended: no cited handler lets an exception escape — every
body is modelled total, with each raise point flowing into the `except`
branch.  `analyze_spending_patterns` always returns either the bare
payload mapping or the `{"error": ...}` mapping (for instance, the
unbound `date_from` of `period="week"` is caught into the error
shape); the list-returning handlers `get_todos_by_category` and
`get_goals_progress` always return a bare list, and when the body of
`get_goals_progress` raises, the caught exception becomes the empty
list, not the error mapping. -/
theorem handlers_catch_and_shape :
    (∀ (period focus : String) (clock : Clock) (st : List Expense),
        analyzeShape (analyze_spending_patterns period focus clock st) = RespShape.plainObj ∨
          analyzeShape (analyze_spending_patterns period focus clock st) =
            RespShape.errorObj) ∧
      (∀ (goal_id : Option String) (status : String) (nowDays : ℤ) (st : List Goal),
        ggpRaises goal_id status nowDays st = true →
          (get_goals_progress goal_id status nowDays st).1 = []) ∧
      analyzeShape (analyze_spending_patterns "week" "trends" clockJune []) =
        RespShape.errorObj := by
  refine ⟨?_, ?_, by decide⟩
  · intro period focus clock st
    cases analyze_spending_patterns period focus clock st with
    | analysis a => left; rfl
    | error m => right; rfl
  · intro goal_id status nowDays st hraise
    unfold ggpRaises at hraise
    unfold get_goals_progress
    cases hloop : ggpLoop nowDays (goalMatches goal_id status) st with
    | ok v => rw [hloop] at hraise; simp at hraise
    | error st2 => rfl

/-- Witness for the amended C3 on a goal store whose malformed
`target_date` makes the body of `get_goals_progress` raise. -/
theorem handlers_catch_and_shape_witness :
    ggpRaises none "all" 0 goalsBadDate = true ∧
      (get_goals_progress none "all" 0 goalsBadDate).1 = [] :=
  ⟨by decide, handlers_catch_and_shape.2.1 none "all" 0 goalsBadDate (by decide)⟩

/-! ## C10: `get_budget_status` mutates the stored budgets -/

theorem gbsLoop_ok (p : Budget → Bool) :
    ∀ st : List (String × Budget), (∀ kb ∈ st, p kb.2 = true → ¬ kb.2.amount = 0) →
      gbsLoop p st = .ok
        (st.map (fun kb => if p kb.2 then (kb.1, budgetUpd kb.2) else kb),
         (st.filter (fun kb => p kb.2)).map (fun kb => budgetUpd kb.2)) := by
  intro st
  induction st with
  | nil => intro _; rfl
  | cons kb rest ih =>
    intro hnz
    obtain ⟨k, b⟩ := kb
    unfold gbsLoop
    by_cases hp : p b = true
    · have hb0 : ¬ b.amount = 0 := hnz (k, b) (by simp) hp
      simp only [hp, if_true, hb0, if_false,
        ih (fun x hx hpx => hnz x (by simp [hx]) hpx)]
      simp [hp]
    · simp only [hp, if_false, ih (fun x hx hpx => hnz x (by simp [hx]) hpx)]
      simp [hp]

/-- C10: `get_budget_status`, a read endpoint, writes through the
shallow `dict.copy()` into the stored budgets: provided every matching
budget has a nonzero amount (the data model requires `amount > 0`;
`amount == 0.0` would raise `ZeroDivisionError` instead), after the
call each matching stored budget carries
`spent_this_period = 0.6 * amount`,
`remaining = amount - spent_this_period` and `percentage_used = 60`,
and later reads of the store observe exactly these overwritten
values. -/
theorem get_budget_status_overwrites (category period : Option String)
    (st : List (String × Budget))
    (hnz : ∀ kb ∈ st, budgetMatches category period kb.2 = true → ¬ kb.2.amount = 0) :
    (get_budget_status category period st).2 =
        st.map (fun kb => if budgetMatches category period kb.2
          then (kb.1, budgetUpd kb.2) else kb) ∧
      ∀ kb ∈ st, budgetMatches category period kb.2 = true →
        (kb.1, budgetUpd kb.2) ∈ (get_budget_status category period st).2 ∧
          (budgetUpd kb.2).spent_this_period = (6 / 10) * kb.2.amount ∧
          (budgetUpd kb.2).remaining = kb.2.amount - (budgetUpd kb.2).spent_this_period ∧
          (budgetUpd kb.2).percentage_used = some 60 := by
  have hloop := gbsLoop_ok (budgetMatches category period) st hnz
  have hst : (get_budget_status category period st).2 =
      st.map (fun kb => if budgetMatches category period kb.2
        then (kb.1, budgetUpd kb.2) else kb) := by
    unfold get_budget_status
    rw [hloop]
  refine ⟨hst, ?_⟩
  intro kb hm hmatch
  refine ⟨?_, mul_comm _ _, rfl, ?_⟩
  · rw [hst]
    have := List.mem_map_of_mem (f := fun kb => if budgetMatches category period kb.2
      then (kb.1, budgetUpd kb.2) else kb) hm
    simpa [hmatch] using this
  · have h0 := hnz kb hm hmatch
    have hpct : kb.2.amount * (6 / 10) / kb.2.amount * 100 = (60 : ℚ) := by
      field_simp
      ring
    exact congrArg some hpct

/-- Witness for C10 on the one-budget store. -/
theorem get_budget_status_overwrites_witness :
    (get_budget_status (some "Food") none storeBudget).2 =
        storeBudget.map (fun kb => if budgetMatches (some "Food") none kb.2
          then (kb.1, budgetUpd kb.2) else kb) ∧
      ∀ kb ∈ storeBudget, budgetMatches (some "Food") none kb.2 = true →
        (kb.1, budgetUpd kb.2) ∈ (get_budget_status (some "Food") none storeBudget).2 ∧
          (budgetUpd kb.2).spent_this_period = (6 / 10) * kb.2.amount ∧
          (budgetUpd kb.2).remaining = kb.2.amount - (budgetUpd kb.2).spent_this_period ∧
          (budgetUpd kb.2).percentage_used = some 60 :=
  get_budget_status_overwrites (some "Food") none storeBudget (by decide)

/-! ## C8: grouping and descending order of `get_expenses_by_category` -/

theorem catCount_cons (c : String) (e : Expense) (l : List Expense) :
    catCount c (e :: l) = (if (e.category == c) = true then 1 else 0) + catCount c l := by
  by_cases h : (e.category == c) = true
  · simp only [catCount, List.filter_cons, h, if_true, List.length_cons]
    omega
  · simp [catCount, List.filter_cons, h]

theorem catTotal_cons (c : String) (e : Expense) (l : List Expense) :
    catTotal c (e :: l) = (if (e.category == c) = true then e.amount else 0) + catTotal c l := by
  by_cases h : (e.category == c) = true <;> simp [catTotal, List.filter_cons, h]

theorem catBriefs_cons (c : String) (e : Expense) (l : List Expense) :
    catBriefs c (e :: l) =
      (if (e.category == c) = true then [briefOf e] else []) ++ catBriefs c l := by
  by_cases h : (e.category == c) = true <;> simp [catBriefs, List.filter_cons, h]

theorem bump_find_eq (e : Expense) (acc : List (String × CatAgg)) :
    (bumpCategory e acc).find? (fun q => q.1 == e.category) =
      some (e.category,
        match acc.find? (fun q => q.1 == e.category) with
        | some q => { count := q.2.count + 1, total := q.2.total + e.amount,
                      expenses := q.2.expenses ++ [briefOf e] }
        | none => { count := 1, total := e.amount, expenses := [briefOf e] }) := by
  induction acc with
  | nil => simp [bumpCategory, List.find?_cons]
  | cons ca rest ih =>
    obtain ⟨c, agg⟩ := ca
    unfold bumpCategory
    by_cases hc : (c == e.category) = true
    · have hceq : c = e.category := by simpa using hc
      subst hceq
      simp [List.find?_cons]
    · simp [List.find?_cons, hc, ih]

theorem bump_find_ne (e : Expense) (c : String) (hne : (e.category == c) = false) :
    ∀ acc : List (String × CatAgg),
      (bumpCategory e acc).find? (fun q => q.1 == c) = acc.find? (fun q => q.1 == c) := by
  intro acc
  induction acc with
  | nil => simp [bumpCategory, List.find?_cons, hne]
  | cons ca rest ih =>
    obtain ⟨c0, agg⟩ := ca
    unfold bumpCategory
    by_cases h0 : (c0 == e.category) = true
    · have hceq : c0 = e.category := by simpa using h0
      subst hceq
      simp [List.find?_cons, hne]
    · by_cases hc0 : (c0 == c) = true <;> simp [List.find?_cons, h0, hc0, ih]

theorem group_find_aux (c : String) :
    ∀ (l : List Expense) (acc : List (String × CatAgg)),
      (l.foldl (fun a e => bumpCategory e a) acc).find? (fun q => q.1 == c) =
        match acc.find? (fun q => q.1 == c) with
        | some q => some (q.1, extendAgg q.2 c l)
        | none =>
          if catCount c l = 0 then none
          else some (c, { count := catCount c l, total := catTotal c l,
                          expenses := catBriefs c l }) := by
  intro l
  induction l with
  | nil =>
    intro acc
    simp only [List.foldl_nil]
    cases hf : acc.find? (fun q => q.1 == c) with
    | none => simp [catCount]
    | some q =>
      have hagg : extendAgg q.2 c [] = q.2 := by
        simp [extendAgg, catCount, catTotal, catBriefs]
      simp [hagg]
  | cons e es ih =>
    intro acc
    simp only [List.foldl_cons]
    rw [ih (bumpCategory e acc)]
    by_cases hc : (e.category == c) = true
    · have hceq : e.category = c := by simpa using hc
      subst hceq
      rw [bump_find_eq e acc]
      cases hf : acc.find? (fun q => q.1 == e.category) with
      | some q =>
        have hq1 : q.1 = e.category := by simpa using List.find?_some hf
        have h1 : q.2.count + 1 + catCount e.category es
            = q.2.count + catCount e.category (e :: es) := by
          rw [catCount_cons]
          simp only [hc, if_true]
          omega
        have h2 : q.2.total + e.amount + catTotal e.category es
            = q.2.total + catTotal e.category (e :: es) := by
          rw [catTotal_cons]
          simp only [hc, if_true]
          ring
        have h3 : (q.2.expenses ++ [briefOf e]) ++ catBriefs e.category es
            = q.2.expenses ++ catBriefs e.category (e :: es) := by
          rw [catBriefs_cons]
          simp [hc]
        simp only [extendAgg, hq1, h1, h2, h3]
      | none =>
        have hcnt : ¬ catCount e.category (e :: es) = 0 := by
          rw [catCount_cons]
          simp [hc]
        have h1 : 1 + catCount e.category es = catCount e.category (e :: es) := by
          rw [catCount_cons]
          simp [hc]
        have h2 : e.amount + catTotal e.category es = catTotal e.category (e :: es) := by
          rw [catTotal_cons]
          simp [hc]
        have h3 : [briefOf e] ++ catBriefs e.category es = catBriefs e.category (e :: es) := by
          rw [catBriefs_cons]
          simp [hc]
        simp only [extendAgg, hcnt, if_false, h1, h2, h3]
    · have hne : (e.category == c) = false := by
        simpa using hc
      rw [bump_find_ne e c hne acc]
      cases hf : acc.find? (fun q => q.1 == c) with
      | some q =>
        simp [extendAgg, catCount_cons, catTotal_cons, catBriefs_cons, hne]
      | none =>
        simp [extendAgg, catCount_cons, catTotal_cons, catBriefs_cons, hne]

theorem group_find (l : List Expense) (c : String) :
    (groupByCategory l).find? (fun q => q.1 == c) =
      if catCount c l = 0 then none
      else some (c, { count := catCount c l, total := catTotal c l,
                      expenses := catBriefs c l }) := by
  have h := group_find_aux c l []
  simpa [groupByCategory] using h

theorem bump_keys (e : Expense) (acc : List (String × CatAgg)) :
    (bumpCategory e acc).map Prod.fst =
      if e.category ∈ acc.map Prod.fst then acc.map Prod.fst
      else acc.map Prod.fst ++ [e.category] := by
  induction acc with
  | nil => simp [bumpCategory]
  | cons ca rest ih =>
    obtain ⟨c0, agg⟩ := ca
    unfold bumpCategory
    by_cases h0 : (c0 == e.category) = true
    · have hceq : c0 = e.category := by simpa using h0
      subst hceq
      simp [h0]
    · have hne : e.category ≠ c0 := fun h => (by simp [h] at h0)
      by_cases hm : e.category ∈ rest.map Prod.fst <;>
        simp [h0, ih, hm, hne]

theorem group_keys_nodup (l : List Expense) :
    ((groupByCategory l).map Prod.fst).Nodup := by
  suffices hgen : ∀ (l : List Expense) (acc : List (String × CatAgg)),
      (acc.map Prod.fst).Nodup →
      ((l.foldl (fun a e => bumpCategory e a) acc).map Prod.fst).Nodup by
    exact hgen l [] (by simp)
  intro l
  induction l with
  | nil => intro acc h; simpa using h
  | cons e es ih =>
    intro acc h
    simp only [List.foldl_cons]
    apply ih
    rw [bump_keys]
    by_cases hm : e.category ∈ acc.map Prod.fst
    · simpa [hm] using h
    · simp only [hm, if_false]
      simp [List.nodup_append, h, hm]

theorem assoc_find?_of_mem {β : Type} {c : String} {v : β} :
    ∀ {l : List (String × β)}, (l.map Prod.fst).Nodup → (c, v) ∈ l →
      l.find? (fun q => q.1 == c) = some (c, v) := by
  intro l
  induction l with
  | nil => intro _ hm; simp at hm
  | cons a rest ih =>
    intro hnd hm
    rw [List.map_cons] at hnd
    have hnd1 := (List.nodup_cons.1 hnd).1
    have hnd2 := (List.nodup_cons.1 hnd).2
    rcases List.mem_cons.1 hm with heq | hm2
    · rw [← heq]
      simp [List.find?_cons]
    · have hc : c ∈ rest.map Prod.fst := List.mem_map.2 ⟨(c, v), hm2, rfl⟩
      have hne : (a.1 == c) = false := by
        rw [beq_eq_false_iff_ne]
        intro heq
        exact hnd1 (heq ▸ hc)
      simp only [List.find?_cons, hne, Bool.false_eq_true, if_false]
      exact ih hnd2 hm2

/-- C8: `get_expenses_by_category` groups the filtered expenses by
their (exact) category: each reported category entry carries the count
of the filtered expenses of that category and the sum of their amounts,
the entries are ordered descending by total, every filtered expense's
category is reported; and on the spec's scenario — an empty store,
`add_expense({amount: 42.50, description: "Groceries", category:
"Food", date: "2025-01-10"})`, then
`get_expenses_by_category(category="Food")` — the result is exactly one
category `"Food"` with `count = 1` and `total = 42.50`. -/
theorem expenses_by_category_grouping :
    (∀ (category date_from date_to : Option String) (st : List Expense),
      (∀ p ∈ (get_expenses_by_category category date_from date_to st).categories,
        p.2.count = catCount p.1 (expFiltered category date_from date_to st) ∧
          p.2.total = catTotal p.1 (expFiltered category date_from date_to st)) ∧
        (get_expenses_by_category category date_from date_to st).categories.Pairwise
          (fun a b => b.2.total ≤ a.2.total) ∧
        ∀ e ∈ expFiltered category date_from date_to st,
          ∃ agg, (e.category, agg) ∈
            (get_expenses_by_category category date_from date_to st).categories) ∧
      (get_expenses_by_category (some "Food") none none storeFood).categories =
        [("Food", foodAgg)] := by
  constructor
  · intro category date_from date_to st
    refine ⟨?_, ?_, ?_⟩
    · intro p hp
      obtain ⟨c0, agg⟩ := p
      have hmem : (c0, agg) ∈ groupByCategory (expFiltered category date_from date_to st) :=
        mem_stableSort.1 hp
      have hfind := assoc_find?_of_mem (group_keys_nodup _) hmem
      rw [group_find] at hfind
      by_cases hz : catCount c0 (expFiltered category date_from date_to st) = 0
      · rw [if_pos hz] at hfind
        exact absurd hfind (by simp)
      · rw [if_neg hz] at hfind
        have hagg := (Prod.ext_iff.1 (Option.some.inj hfind)).2
        exact ⟨by rw [← hagg], by rw [← hagg]⟩
    · have hsorted := pairwise_stableSort
        (fun p : String × CatAgg => OrderDual.toDual p.2.total)
        (groupByCategory (expFiltered category date_from date_to st))
      exact hsorted.imp (fun h => OrderDual.toDual_le_toDual.1 h)
    · intro e he
      have hcnt : ¬ catCount e.category (expFiltered category date_from date_to st) = 0 := by
        have hein : e ∈ (expFiltered category date_from date_to st).filter
            (fun x => x.category == e.category) :=
          List.mem_filter.2 ⟨he, by simp⟩
        unfold catCount
        intro h0
        rw [List.length_eq_zero] at h0
        rw [h0] at hein
        simp at hein
      have hfind := group_find (expFiltered category date_from date_to st) e.category
      rw [if_neg hcnt] at hfind
      exact ⟨_, mem_stableSort.2 (List.mem_of_find?_eq_some hfind)⟩
  · rfl

/-- Witness for C8: the scenario's category entry carries the count and
total the grouping theorem prescribes. -/
theorem expenses_by_category_grouping_witness :
    ("Food", foodAgg) ∈ (get_expenses_by_category (some "Food") none none
        storeFood).categories ∧
      foodAgg.count = catCount "Food" (expFiltered (some "Food") none none storeFood) ∧
      foodAgg.total = catTotal "Food" (expFiltered (some "Food") none none storeFood) := by
  have hmem : ("Food", foodAgg) ∈ (get_expenses_by_category (some "Food") none none
      storeFood).categories := by
    rw [expenses_by_category_grouping.2]
    exact List.mem_singleton_self _
  exact ⟨hmem,
    (expenses_by_category_grouping.1 (some "Food") none none storeFood).1 _ hmem⟩

end ViennaLive
